import Mathlib

/-!
Verification of the SOLECTRUS Home Assistant integration's batching write
manager (`custom_components/solectrus_integration/manager.py`).

The Python code is shallowly embedded: the dynamically typed Python values
flowing through the pipeline become the tagged union `PyVal`; Python floats
become `PyFloat`: either an exact decimal `mant / 10 ^ scale` — every
concrete finite literal appearing in the claims is far from any
binary-representation boundary, so truncation, comparison and rounding
agree with CPython's binary doubles on them — or a signed infinity, with
the IEEE-double overflow cutoff `2^1024 - 2^970` marking where `float(int)`
raises `OverflowError` and `float(str)` silently overflows to `±inf`;
`datetime` values are modelled as UTC instants with second and microsecond
components; and the `dict`-based pending map becomes an insertion-ordered
association list with CPython 3.7+ dict semantics (updating an existing key
keeps its original position, new keys append). Fallible Python operations
return `Except PyExc`; the `try/except (TypeError, ValueError)` block of
`_coerce_value` is embedded explicitly.
-/

/-- Python exception classes relevant to the embedded code.
`overflowError` is CPython's `OverflowError` — raised by `float(n)` on an
int too large for a double and by `int(f)` on an infinite float — and is
NOT caught by the `except (TypeError, ValueError)` clause of
`_coerce_value`. `otherError` stands for any further uncaught class. -/
inductive PyExc where
  | typeError
  | valueError
  | overflowError
  | otherError
deriving DecidableEq, Repr

/-- The round-to-nearest-even overflow cutoff of IEEE-754 doubles: a real
value whose magnitude is `≥ 2^1024 - 2^970` rounds past the largest
finite double `2^1024 - 2^971` to infinity. `float(int)` raises
`OverflowError` at this cutoff; `float(str)` silently overflows to
`±inf` there. Written as an explicit numeral so that concrete
evaluations reduce; the theorem `PY_FLOAT_OVERFLOW_CUTOFF_spec` checks
it against `2 ^ 1024 - 2 ^ 970`. -/
def PY_FLOAT_OVERFLOW_CUTOFF : ℕ :=
  179769313486231580793728971405303415079934132710037826936173778980444968292764750946649017977587207096330286416692887910946555547851940402630657488671505820681908902000708383676273854845817711531764475730270069855571366959622842914819860834936475292719074168444365510704342711559699508093042880177904174497792

/-- `2 ^ 1024`, a 309-digit integer beyond the double range
(`float` of it raises `OverflowError`), as an explicit numeral. -/
def PY_OVERFLOW_INT : ℕ :=
  179769313486231590772930519078902473361797697894230657273430081157732675805500963132708477322407536021120113879871393357658789768814416622492847430639474124377767893424865485276302219601246094119453082952085005768838150682342462881473913110540827237163350510684586298239947245938479716304835356329624224137216

/-- The decimal digit string of `PY_OVERFLOW_INT`. -/
def PY_OVERFLOW_STR : String :=
  "179769313486231590772930519078902473361797697894230657273430081157732675805500963132708477322407536021120113879871393357658789768814416622492847430639474124377767893424865485276302219601246094119453082952085005768838150682342462881473913110540827237163350510684586298239947245938479716304835356329624224137216"

/-- A Python float: either the exact decimal `mant / 10 ^ scale` (the
finite doubles arising in this code are decimal literals far from any
binary-representation boundary, so exact decimals track CPython on them)
or a signed infinity (`inf true` is `-inf`). `nan` and the `inf`/`nan`
string literals are outside the model; no claim or repository input
produces them. -/
inductive PyFloat where
  | finite (mant : ℤ) (scale : ℕ)
  | inf (neg : Bool)
deriving DecidableEq, Repr

namespace PyFloat

/-- Python float of an in-range integer. -/
def ofInt (n : ℤ) : PyFloat :=
  .finite n 0

/-- Numeric equality (`==` between Python numbers): cross-multiplied
comparison of the exact decimals; infinities equal only the same-signed
infinity. -/
def beq : PyFloat → PyFloat → Bool
  | .finite m1 s1, .finite m2 s2 => m1 * 10 ^ s2 == m2 * 10 ^ s1
  | .inf n1, .inf n2 => n1 == n2
  | _, _ => false

/-- Numeric strict order (`<` between Python numbers). -/
def blt : PyFloat → PyFloat → Bool
  | .finite m1 s1, .finite m2 s2 => m1 * 10 ^ s2 < m2 * 10 ^ s1
  | .finite _ _, .inf n => !n
  | .inf n, .finite _ _ => n
  | .inf n1, .inf n2 => n1 && !n2

/-- Python `int(f)`: truncation toward zero on a finite float;
`OverflowError` on an infinity. -/
def trunc : PyFloat → Except PyExc ℤ
  | .finite m s => .ok (m.tdiv (10 ^ s))
  | .inf _ => .error .overflowError

/-- The finite-double range invariant: every float CPython can actually
hold is finite with magnitude below the overflow cutoff, or infinite. -/
def fin_range : PyFloat → Prop
  | .finite m s => m.natAbs < PY_FLOAT_OVERFLOW_CUTOFF * 10 ^ s
  | .inf _ => True

end PyFloat

/-- A dynamically typed Python value as it flows through the manager:
`int`, `float`, `bool`, `str`, `list`, `dict` (string-keyed, as in Home
Assistant attribute payloads), and `None`. In Python `bool` is a subclass
of `int`; the embedding keeps the variants separate and reproduces the
subclass behaviour in `numVal`. -/
inductive PyVal where
  | int (n : ℤ)
  | float (q : PyFloat)
  | bool (b : Bool)
  | str (s : String)
  | list (l : List PyVal)
  | dict (d : List (String × PyVal))
  | none
deriving Repr

/-- `value is None`. -/
def PyVal.isNone : PyVal → Bool
  | .none => true
  | _ => false

/-- The numeric view of a value: `isinstance(v, (int, float))` together
with the number it denotes. In Python `bool` IS an instance of `int`
(`True == 1`, `False == 0`), so booleans are numeric here as well. -/
def PyVal.numVal : PyVal → Option PyFloat
  | .int n => some (.ofInt n)
  | .float q => some q
  | .bool b => some (.ofInt (if b then 1 else 0))
  | _ => Option.none

/-- Python `==` on the values reachable in the manager's pipeline: numbers
compare by numeric value across `int`/`float`/`bool`, strings compare as
strings, `None` equals only `None`. The pipeline never compares containers
(`_state_to_value` and `_coerce_value` only ever hand scalars to the
comparison on line 157 of manager.py), so container equality is left at
the mixed-type default `false`. -/
def pyEq (a b : PyVal) : Bool :=
  match a.numVal, b.numVal with
  | some x, some y => x.beq y
  | _, _ =>
    match a, b with
    | .str s, .str t => s == t
    | .none, .none => true
    | _, _ => false

/-- Python truthiness (`if candidate:`). -/
def pyTruthy : PyVal → Bool
  | .none => false
  | .bool b => b
  | .int n => n != 0
  | .float q => q.beq (.ofInt 0) == false
  | .str s => !s.isEmpty
  | .list l => !l.isEmpty
  | .dict d => !d.isEmpty

/-- Whitespace stripping as done by Python's `int()`/`float()` on string
arguments (`"  42 "` parses). -/
def pyStrip (cs : List Char) : List Char :=
  ((cs.dropWhile Char.isWhitespace).reverse.dropWhile Char.isWhitespace).reverse

/-- Numeric value of a digit string (most significant first). -/
def digitsVal (cs : List Char) : ℕ :=
  cs.foldl (fun n c => n * 10 + (c.toNat - 48)) 0

/-- All characters are ASCII decimal digits. -/
def allDigits (cs : List Char) : Bool :=
  cs.all Char.isDigit

/-- Model of Python `int(s)` on a string: optional surrounding whitespace,
optional sign, then a non-empty run of decimal digits; anything else
raises `ValueError` (modelled as `none`). Digit-group underscores and
non-ASCII digits, which CPython also accepts, are outside this model; no
value in the repository or its tests uses them. -/
def pyParseInt (s : String) : Option ℤ :=
  match pyStrip s.data with
  | '-' :: rest =>
      if rest ≠ [] ∧ allDigits rest then some (-(digitsVal rest : ℤ)) else Option.none
  | '+' :: rest =>
      if rest ≠ [] ∧ allDigits rest then some (digitsVal rest : ℤ) else Option.none
  | cs => if cs ≠ [] ∧ allDigits cs then some (digitsVal cs : ℤ) else Option.none

/-- Split a character list at the first character satisfying `p`; the
second component is `none` when no such character occurs. -/
def splitFirst (p : Char → Bool) : List Char → List Char × Option (List Char)
  | [] => ([], Option.none)
  | c :: cs =>
      if p c then ([], some cs)
      else
        let r := splitFirst p cs
        (c :: r.1, r.2)

/-- Strip one optional leading sign, returning `-1` or `1`. -/
def stripSign : List Char → Bool × List Char
  | '-' :: rest => (true, rest)
  | '+' :: rest => (false, rest)
  | cs => (false, cs)

/-- Normalize the decimal `digits / 10 ^ fracLen * 10 ^ e` to an integer
mantissa and a non-negative decimal scale. -/
def mkPyFloatDigits (digits fracLen : ℕ) (e : ℤ) : ℕ × ℕ :=
  if 0 ≤ (fracLen : ℤ) - e then (digits, ((fracLen : ℤ) - e).toNat)
  else (digits * 10 ^ (e - (fracLen : ℤ)).toNat, 0)

/-- Assemble the decimal `±digits / 10 ^ fracLen * 10 ^ e` as a double:
the exact finite decimal below the overflow cutoff, `±inf` at or above
it (as `strtod` — and hence CPython `float(str)` — silently overflows). -/
def mkPyFloat (neg : Bool) (digits : ℕ) (fracLen : ℕ) (e : ℤ) : PyFloat :=
  let d := (mkPyFloatDigits digits fracLen e).1
  let sc := (mkPyFloatDigits digits fracLen e).2
  if PY_FLOAT_OVERFLOW_CUTOFF * 10 ^ sc ≤ d then .inf neg
  else .finite (if neg then -(d : ℤ) else (d : ℤ)) sc

/-- Model of Python `float(s)` on a string: optional whitespace and sign,
a mantissa `digits[.digits]` / `.digits` / `digits.` with at least one
digit, and an optional `e`/`E` exponent with optional sign; magnitudes at
or beyond the double range overflow silently to `±inf` (CPython:
`float("1e999") = inf`). The `inf`/`nan` literals are outside this model
(no claim or repository input uses them), and sub-double-precision
underflow to zero is not modelled (the exact tiny decimal is kept). -/
def pyParseFloat (s : String) : Option PyFloat :=
  let cs0 := pyStrip s.data
  let neg := (stripSign cs0).1
  let cs := (stripSign cs0).2
  let mant := (splitFirst (fun c => c == 'e' || c == 'E') cs).1
  let expPart := (splitFirst (fun c => c == 'e' || c == 'E') cs).2
  let expVal : Option ℤ :=
    match expPart with
    | Option.none => some 0
    | some ecs =>
        let eneg := (stripSign ecs).1
        let edigits := (stripSign ecs).2
        if edigits ≠ [] ∧ allDigits edigits then
          some (if eneg then -(digitsVal edigits : ℤ) else (digitsVal edigits : ℤ))
        else Option.none
  match expVal with
  | Option.none => Option.none
  | some e =>
      let ip := (splitFirst (fun c => c == '.') mant).1
      let fp := ((splitFirst (fun c => c == '.') mant).2).getD []
      if (ip ≠ [] ∨ fp ≠ []) ∧ allDigits ip ∧ allDigits fp then
        some (mkPyFloat neg (digitsVal (ip ++ fp)) fp.length e)
      else Option.none

/-- Python `s.startswith(p)` (`String.startsWith` modelled over the
character lists). -/
def pyStartsWith (s p : String) : Bool :=
  p.data.isPrefixOf s.data

/-- Python `str.lower()` (ASCII case folding suffices for the code's
inputs). -/
def pyLower (s : String) : String :=
  ⟨s.data.map Char.toLower⟩

/-- Python `float(value)` over the tagged union: an int converts by value
but raises `OverflowError` beyond the double range (`float(10**999)`),
floats and booleans convert by value, strings parse (overflowing
silently to `±inf`, as `float("1e999")` does) or raise `ValueError`,
everything else raises `TypeError`. -/
def py_float : PyVal → Except PyExc PyFloat
  | .int n =>
      if PY_FLOAT_OVERFLOW_CUTOFF ≤ n.natAbs then .error .overflowError
      else .ok (.ofInt n)
  | .float q => .ok q
  | .bool b => .ok (.ofInt (if b then 1 else 0))
  | .str s =>
      match pyParseFloat s with
      | some q => .ok q
      | Option.none => .error .valueError
  | .none => .error .typeError
  | .list _ => .error .typeError
  | .dict _ => .error .typeError

/-- manager.py line 38: `_coerce_int(value) = int(float(value))`
(truncation toward zero of the float conversion; `OverflowError` when
the float conversion overflows or yields an infinity). -/
def _coerce_int (value : PyVal) : Except PyExc ℤ :=
  (py_float value).bind PyFloat.trunc

/-- Python `str(value)`. The textual rendering of non-integral finite
floats and of containers is abstracted (nothing in the claims inspects
it); integral floats use CPython's `"n.0"` form, infinities and
integers/booleans/`None` their exact CPython spelling. `str()` never
raises. -/
def py_str : PyVal → String
  | .int n => toString n
  | .float (.finite m s) =>
      if s = 0 then toString m ++ ".0" else toString m ++ "d" ++ toString s
  | .float (.inf neg) => if neg then "-inf" else "inf"
  | .bool b => if b then "True" else "False"
  | .str s => s
  | .none => "None"
  | .list _ => "<list>"
  | .dict _ => "<dict>"

/-- manager.py lines 26-35: the fixed string-to-bool table. -/
def BOOL_STRING_MAP : List (String × Bool) :=
  [("on", true), ("true", true), ("1", true), ("yes", true),
   ("off", false), ("false", false), ("0", false), ("no", false)]

/-- manager.py lines 328-350: `SensorManager._coerce_value`. The
`SIMPLE_CONVERTERS` dict dispatch on `int`/`float`/`string` becomes the
first three branches; the `bool` branch reproduces the `isinstance`
ladder (booleans first, then numeric truthiness, then the lowercased
table lookup, else `None`); any other declared type passes the value
through. The surrounding `try/except (TypeError, ValueError)` maps those
two exception classes to `None` (= `PyVal.none`) and would re-raise
anything else. -/
def _coerce_value (value : PyVal) (data_type : String) : Except PyExc PyVal :=
  let inner : Except PyExc PyVal :=
    if data_type = "int" then (_coerce_int value).map PyVal.int
    else if data_type = "float" then (py_float value).map PyVal.float
    else if data_type = "string" then .ok (.str (py_str value))
    else if data_type = "bool" then
      .ok (match value with
        | .bool b => .bool b
        | .int n => .bool (n != 0)
        | .float q => .bool (q.beq (.ofInt 0) == false)
        | .str s =>
            match BOOL_STRING_MAP.lookup (pyLower s) with
            | some b => .bool b
            | Option.none => .none
        | _ => .none)
    else .ok value
  match inner with
  | .error .typeError => .ok .none
  | .error .valueError => .ok .none
  | .error e => .error e
  | .ok v => .ok v

/-- manager.py lines 394-419: `SensorManager._state_to_value`. The state
is modelled by its `state` string (`none` = missing state object).
`unknown` and `unavailable` map to absent; otherwise: exact integer parse
accepted only when `str(int(raw)) == raw`, then float parse, then
case-insensitive boolean literals, else the raw string. -/
def _state_to_value (state : Option String) : PyVal :=
  match state with
  | Option.none => .none
  | some raw =>
      if raw = "unknown" ∨ raw = "unavailable" then .none
      else
        let afterInt : PyVal :=
          match pyParseFloat raw with
          | some q => .float q
          | Option.none =>
              let lowered := pyLower raw
              if lowered = "on" ∨ lowered = "true" then .bool true
              else if lowered = "off" ∨ lowered = "false" then .bool false
              else .str raw
        match pyParseInt raw with
        | some n => if toString n = raw then .int n else afterInt
        | Option.none => afterInt

/-- A UTC instant with second and microsecond components, modelling an
aware `datetime` already converted by `dt_util.as_utc` (every timestamp
the manager handles goes through `as_utc`, so time zones are resolved
away in the embedding). -/
structure DT where
  sec : ℤ
  usec : ℕ
deriving DecidableEq, Repr

/-- `datetime` order (used by `sorted(series, key=...)`). -/
def DT.le (a b : DT) : Bool :=
  a.sec < b.sec || (a.sec == b.sec && a.usec ≤ b.usec)

/-- `a - b` as a `timedelta`, in whole microseconds. -/
def DT.diffUs (a b : DT) : ℤ :=
  (a.sec - b.sec) * 1000000 + ((a.usec : ℤ) - (b.usec : ℤ))

/-- `t - timedelta(seconds=n)`. -/
def DT.subSec (t : DT) (n : ℤ) : DT :=
  ⟨t.sec - n, t.usec⟩

/-- Model of `datetime.isoformat()` as used to build pending-map keys: an
injective textual rendering of the instant. -/
def DT.iso (t : DT) : String :=
  toString t.sec ++ "." ++ toString t.usec

/-- manager.py line 24: `GAP_FILL_ZERO_RESUME_THRESHOLD =
timedelta(seconds=30)`, in microseconds. -/
def GAP_FILL_ZERO_RESUME_THRESHOLD_US : ℤ := 30 * 1000000

/-- manager.py lines 49-59: one configured SOLECTRUS sensor mapping.
`last_value = PyVal.none` and `last_timestamp = none` are the dataclass
defaults. -/
structure ConfiguredSensor where
  key : String
  entity_id : String
  measurement : String
  field : String
  data_type : String
  last_value : PyVal := .none
  last_timestamp : Option DT := Option.none
deriving Repr

/-- manager.py lines 62-68: a point waiting to be sent. -/
structure PendingPoint where
  sensor : ConfiguredSensor
  value : PyVal
  timestamp : DT
deriving Repr

/-- The manager's `_pending` dict, as an insertion-ordered association
list (CPython 3.7+ semantics). -/
abbrev PendingMap := List (String × PendingPoint)

/-- `m[k] = v` on a Python dict: an existing key keeps its position and
gets the new value; a new key is appended. -/
def dictSet (m : PendingMap) (k : String) (v : PendingPoint) : PendingMap :=
  if m.any (fun kv => kv.1 == k) then
    m.map (fun kv => if kv.1 == k then (k, v) else kv)
  else m ++ [(k, v)]

/-- `m.setdefault(k, v)` on a Python dict: insert only if the key is
absent. -/
def dictSetdefault (m : PendingMap) (k : String) (v : PendingPoint) : PendingMap :=
  if m.any (fun kv => kv.1 == k) then m else m ++ [(k, v)]

/-- Dict lookup (first binding of the key). -/
def dictFind : PendingMap → String → Option PendingPoint
  | [], _ => Option.none
  | kv :: rest, k => if kv.1 == k then some kv.2 else dictFind rest k

/-- `Modelled from the spec:` the constant `FORECAST_SENSOR_KEYS` is
imported by manager.py from `const.py` but absent from the provided
`const.py`; the spec's forecast-sensor discussion and the sensor table
name exactly the two forecast-tagged keys, `INVERTER_POWER_FORECAST`
(attribute-based) and `OUTDOOR_TEMP_FORECAST` (temperature forecast). -/
def FORECAST_SENSOR_KEYS : List String :=
  ["INVERTER_POWER_FORECAST", "OUTDOOR_TEMP_FORECAST"]

/-- manager.py lines 353-355: normalize timestamps to the sink's write
precision — UTC (already resolved in `DT`) truncated to whole seconds. -/
def _normalize_timestamp (t : DT) : DT :=
  ⟨t.sec, 0⟩

/-- The pending-map key built on manager.py line 195:
`f"{sensor.key}:{normalized_timestamp.isoformat()}"`. -/
def defaultPendingKey (sensor : ConfiguredSensor) (t : DT) : String :=
  sensor.key ++ ":" ++ t.iso

/-- manager.py lines 180-200: `SensorManager._queue_point`. The value is
re-coerced; a coercion result of `None` drops the point; the timestamp
defaults to `utcnow()` (`timestamp or ...` — a `datetime` is always
truthy) and the key defaults to `sensorKey:isoformat` (`pending_key or
...` — the `or` also replaces an empty string, which no caller builds).
An `OverflowError` from the re-coercion escapes `_queue_point` uncaught
(see the C10 theorem); the `.error` branch records its net effect on the
pending map — the exception aborts the method before any insertion. -/
def _queue_point (sensor : ConfiguredSensor) (pending : PendingMap) (value : PyVal)
    (timestamp : Option DT) (pending_key : Option String) (now : DT) : PendingMap :=
  match _coerce_value value sensor.data_type with
  | .error _ => pending
  | .ok coerced =>
      if coerced.isNone then pending
      else
        let nt := _normalize_timestamp (timestamp.getD now)
        let k :=
          match pending_key with
          | some s => if s.isEmpty then defaultPendingKey sensor nt else s
          | Option.none => defaultPendingKey sensor nt
        dictSet pending k ⟨sensor, coerced, nt⟩

/-- A Home Assistant `State` as the manager consumes it: the `state`
string, the resolved source timestamp, and the `forecast` attribute.
`ts` stands for the value `_state_to_timestamp` extracts (its
attribute-priority scan is not touched by any claim; for a present state
it always yields a `datetime`, falling back to `state.last_updated`, so
the `or dt_util.utcnow()` on line 150 never fires for a present state).
`forecast` is `attributes.get("forecast")` (`PyVal.none` when absent). -/
structure HAState where
  state : String
  ts : DT
  forecast : PyVal := .none

/-- One slot of `_attribute_forecast_series` (manager.py lines 281-297):
take the first truthy value among the `datetime`/`time`/`period_end`
keys, parse it, read `value_key`, and keep the pair only when both parse
and value are present. `parseDT` models the external
`dt_util.parse_datetime` (composed with `as_utc`); Home Assistant
forecast payloads carry ISO strings, so a non-string time value is
treated as unparseable. -/
def extract_slot (parseDT : String → Option DT) (value_key : String) (item : PyVal) :
    Option (DT × PyVal) :=
  match item with
  | .dict d =>
      let rawTime : PyVal :=
        match ["datetime", "time", "period_end"].find?
            (fun k => pyTruthy ((d.lookup k).getD .none)) with
        | some k => (d.lookup k).getD .none
        | Option.none => .none
      match rawTime with
      | .none => Option.none
      | .str s =>
          match parseDT s with
          | some whenT =>
              let value := (d.lookup value_key).getD .none
              if value.isNone then Option.none else some (whenT, value)
          | Option.none => Option.none
      | _ => Option.none
  | _ => Option.none

/-- manager.py lines 271-299: `SensorManager._attribute_forecast_series`.
A non-list payload yields an empty series; each malformed slot is dropped
independently. -/
def _attribute_forecast_series (parseDT : String → Option DT) (forecast_list : PyVal)
    (value_key : String) : List (DT × PyVal) :=
  match forecast_list with
  | .list items => items.filterMap (extract_slot parseDT value_key)
  | _ => []

/-- Insert into a chronologically sorted series, before the first later
element (stable for equal timestamps). -/
def insertSorted (x : DT × PyVal) : List (DT × PyVal) → List (DT × PyVal)
  | [] => [x]
  | y :: ys => if x.1.le y.1 then x :: y :: ys else y :: insertSorted x ys

/-- Model of Python's stable `sorted(series, key=lambda pair: pair[0])`. -/
def pySorted : List (DT × PyVal) → List (DT × PyVal)
  | [] => []
  | x :: xs => insertSorted x (pySorted xs)

/-- manager.py lines 202-229: `SensorManager._queue_forecast_points`. A
missing state queues nothing. `weather.*` entities obtain their series
from a service call (external I/O); that awaited response is the
`weatherSeries` parameter. Other forecast entities read the `forecast`
attribute, with the value key `temperature` for `OUTDOOR_TEMP_FORECAST`
and the sensor's configured field otherwise. The series is queued in
ascending timestamp order under explicit `sensorKey:isoformat` keys. -/
def _queue_forecast_points (parseDT : String → Option DT)
    (weatherSeries : List (DT × PyVal)) (sensor : ConfiguredSensor)
    (pending : PendingMap) (state : Option HAState) (now : DT) : PendingMap :=
  match state with
  | Option.none => pending
  | some st =>
      let series :=
        if pyStartsWith sensor.entity_id "weather." then weatherSeries
        else
          let value_key :=
            if sensor.key = "OUTDOOR_TEMP_FORECAST" then "temperature" else sensor.field
          _attribute_forecast_series parseDT st.forecast value_key
      (pySorted series).foldl
        (fun m tv =>
          let nt := _normalize_timestamp tv.1
          _queue_point sensor m tv.2 (some nt) (some (defaultPendingKey sensor nt)) now)
        pending

/-- manager.py lines 133-178: `SensorManager._handle_state_change` for a
sensor that IS configured (the `sensors.get(entity_id)` miss returns
early and is not modelled; the claims all concern configured sensors).
Forecast-tagged sensors delegate to `_queue_forecast_points`; otherwise
the value is extracted, the timestamp normalized, the value coerced, the
exact-duplicate update skipped, the gap-fill heuristic applied, and the
point queued. Returns the updated sensor (the dataclass is mutated in
place in Python) and the updated pending map. -/
def _handle_state_change (parseDT : String → Option DT)
    (weatherSeries : List (DT × PyVal)) (sensor : ConfiguredSensor)
    (pending : PendingMap) (new_state : Option HAState) (now : DT) :
    ConfiguredSensor × PendingMap :=
  if sensor.key ∈ FORECAST_SENSOR_KEYS then
    (sensor, _queue_forecast_points parseDT weatherSeries sensor pending new_state now)
  else
    let value := _state_to_value (new_state.map HAState.state)
    if value.isNone then (sensor, pending)
    else
      let timestamp :=
        _normalize_timestamp ((new_state.map HAState.ts).getD now)
      match _coerce_value value sensor.data_type with
      | .error _ => (sensor, pending)
      | .ok coerced =>
          if coerced.isNone then (sensor, pending)
          else if pyEq sensor.last_value coerced ∧ sensor.last_timestamp = some timestamp then
            (sensor, pending)
          else
            let should_gap_fill : Bool :=
              match sensor.last_timestamp, sensor.last_value.numVal, coerced.numVal with
              | some lastT, some lastN, some coercedN =>
                  lastN.beq (.ofInt 0) && PyFloat.blt (.ofInt 0) coercedN &&
                    decide (GAP_FILL_ZERO_RESUME_THRESHOLD_US ≤ timestamp.diffUs lastT)
              | _, _, _ => false
            let sensor' :=
              { sensor with last_value := coerced, last_timestamp := some timestamp }
            let pending' :=
              if should_gap_fill then
                _queue_point sensor' pending (.int 0) (some (timestamp.subSec 1))
                  Option.none now
              else pending
            (sensor', _queue_point sensor' pending' coerced (some timestamp) Option.none now)

/-- One line-protocol point as built on manager.py lines 309-314. -/
structure Point where
  measurement : String
  field : String
  value : PyVal
  timestamp : DT
deriving Repr

/-- The batch constructed from the swapped-out pending map. -/
def build_points (batch : PendingMap) : List Point :=
  batch.map (fun kv => ⟨kv.2.sensor.measurement, kv.2.sensor.field, kv.2.value, kv.2.timestamp⟩)

/-- manager.py lines 301-326: `SensorManager._flush_batch`. If nothing is
pending the flush is a no-op. Otherwise the whole pending dict is swapped
out for a fresh one, one point per entry is built, and the batch is
written. Enqueues arriving while the write is awaited land in the fresh
map; they are the `during` parameter (each `_queue_point` is one `dictSet`
on it). On `SolectrusInfluxError` (`writeFails`) every entry of the failed
batch is merged back with `setdefault` — insert only if a newer entry for
the key has not arrived. Returns the resulting live pending map and the
batches submitted to the sink. -/
def _flush_batch (pending : PendingMap) (during : List (String × PendingPoint))
    (writeFails : Bool) : PendingMap × List (List Point) :=
  if pending.isEmpty then (pending, [])
  else
    let batch := pending
    let live := during.foldl (fun m kv => dictSet m kv.1 kv.2) ([] : PendingMap)
    let live' :=
      if writeFails then batch.foldl (fun m kv => dictSetdefault m kv.1 kv.2) live
      else live
    (live', [build_points batch])

/-- The manager's mutable lifecycle state: the two unsubscribe handles
(`Bool` = handle currently held) and the pending map. -/
structure ManagerState where
  unsub_state : Bool
  unsub_batch : Bool
  pending : PendingMap

/-- Result of one `async_stop` call: the state afterwards, how many
handles were released, and the batches written to the sink. -/
structure StopOutcome where
  state : ManagerState
  releases : ℕ
  writes : List (List Point)

/-- manager.py lines 121-131: `SensorManager.async_stop`. Each held
unsubscribe handle is called once and cleared; then, if any points are
pending, one final `_flush_batch` runs (no events can interleave — the
subscription was just cancelled, so `during = []`). -/
def async_stop (st : ManagerState) (writeFails : Bool) : StopOutcome :=
  let r1 : ℕ := if st.unsub_state then 1 else 0
  let r2 : ℕ := if st.unsub_batch then 1 else 0
  if st.pending.isEmpty then
    ⟨⟨false, false, st.pending⟩, r1 + r2, []⟩
  else
    let fr := _flush_batch st.pending [] writeFails
    ⟨⟨false, false, fr.1⟩, r1 + r2, fr.2⟩

/-- The non-container values (everything `_state_to_value` can return). -/
def Scalar : PyVal → Prop
  | .list _ => False
  | .dict _ => False
  | _ => True

/-- The value `_state_to_value` falls back to when the exact integer
parse does not apply: float parse, then boolean literals, then the raw
string (the `afterInt` local of the source, named for proof reuse;
definitionally equal to the inline `let` in `_state_to_value`). -/
def afterIntVal (raw : String) : PyVal :=
  match pyParseFloat raw with
  | some q => PyVal.float q
  | Option.none =>
      if pyLower raw = "on" ∨ pyLower raw = "true" then PyVal.bool true
      else if pyLower raw = "off" ∨ pyLower raw = "false" then PyVal.bool false
      else PyVal.str raw

def c1sensor : ConfiguredSensor :=
  { key := "HOUSE_POWER", entity_id := "sensor.house_power",
    measurement := "house", field := "power", data_type := "int" }

def c1pa : PendingPoint := ⟨c1sensor, .int 1, ⟨100, 0⟩⟩

def c1pb : PendingPoint := ⟨c1sensor, .int 2, ⟨105, 0⟩⟩

def c1pa2 : PendingPoint := ⟨c1sensor, .int 7, ⟨110, 0⟩⟩

def c5sensor : ConfiguredSensor :=
  { key := "GRID_POWER_IMPORT", entity_id := "sensor.grid_import",
    measurement := "grid", field := "import_power", data_type := "int" }

def c2sensor : ConfiguredSensor :=
  { key := "HOUSE_POWER", entity_id := "sensor.house_power",
    measurement := "house", field := "power", data_type := "int",
    last_value := .int 0, last_timestamp := some ⟨1000, 0⟩ }

def c2sensorAfter : ConfiguredSensor :=
  { c2sensor with last_value := .int 5, last_timestamp := some ⟨1035, 0⟩ }

def c3sensor : ConfiguredSensor :=
  { key := "WALLBOX_POWER", entity_id := "sensor.wallbox_power",
    measurement := "wallbox", field := "power", data_type := "int",
    last_value := .int 5, last_timestamp := some ⟨1035, 0⟩ }

/-- A concrete model of `dt_util.parse_datetime` for witnesses: datetime
strings are whole-second integer strings. -/
def c8parse : String → Option DT :=
  fun s => (pyParseInt s).map (fun n => ⟨n, 0⟩)

def c8payload : PyVal :=
  .list [.dict [("datetime", .str "100"), ("power", .int 1500)],
         .dict [("datetime", .str "200"), ("power", .int 1800)],
         .dict [("datetime", .str "300"), ("power", .int 1200)]]

def c8sensor : ConfiguredSensor :=
  { key := "INVERTER_POWER_FORECAST", entity_id := "sensor.inverter_forecast",
    measurement := "inverter_forecast", field := "power", data_type := "int" }

/-! ## Dictionary lemmas -/

theorem dictFind_nil (k : String) : dictFind [] k = Option.none := rfl

theorem dictFind_cons (kv : String × PendingPoint) (m : PendingMap) (k : String) :
    dictFind (kv :: m) k = if kv.1 == k then some kv.2 else dictFind m k := rfl

theorem dictFind_append (l1 l2 : PendingMap) (k : String) :
    dictFind (l1 ++ l2) k =
      match dictFind l1 k with
      | some v => some v
      | Option.none => dictFind l2 k := by
  induction l1 with
  | nil => simp [dictFind]
  | cons kv t ih =>
      simp only [List.cons_append, dictFind_cons]
      by_cases h : kv.1 == k
      · simp [h]
      · simp [h, ih]

theorem any_key_eq_true_iff (m : PendingMap) (k : String) :
    m.any (fun kv => kv.1 == k) = true ↔ (dictFind m k).isSome := by
  induction m with
  | nil => simp [dictFind]
  | cons kv t ih =>
      by_cases h : kv.1 == k
      · simp [dictFind_cons, h]
      · simp [dictFind_cons, h, ih]

theorem mem_keys_iff (m : PendingMap) (k : String) :
    k ∈ m.map Prod.fst ↔ (dictFind m k).isSome := by
  induction m with
  | nil => simp [dictFind]
  | cons kv t ih =>
      by_cases h : kv.1 == k
      · have hk : kv.1 = k := by simpa using h
        simp [dictFind_cons, h, hk]
      · have hk : ¬ kv.1 = k := by simpa using h
        rw [List.map_cons, List.mem_cons, dictFind_cons, if_neg h]
        constructor
        · rintro (rfl | hmem)
          · exact absurd rfl hk
          · exact ih.mp hmem
        · intro hs
          exact Or.inr (ih.mpr hs)

theorem dictFind_dictSetdefault (m : PendingMap) (k' : String) (v' : PendingPoint)
    (k : String) :
    dictFind (dictSetdefault m k' v') k =
      match dictFind m k with
      | some v => some v
      | Option.none => if k' == k then some v' else Option.none := by
  unfold dictSetdefault
  by_cases hmem : m.any (fun kv => kv.1 == k') = true
  · rw [if_pos hmem]
    cases hf : dictFind m k with
    | some v => rfl
    | none =>
        by_cases hk : k' == k
        · exfalso
          have hp : (dictFind m k').isSome := (any_key_eq_true_iff m k').mp hmem
          have hkk : k' = k := by simpa using hk
          rw [hkk, hf] at hp
          simp at hp
        · simp [hk]
  · rw [if_neg hmem, dictFind_append]
    cases hf : dictFind m k with
    | some v => rfl
    | none => rfl

theorem dictFind_foldl_setdefault (l : List (String × PendingPoint)) (m : PendingMap)
    (k : String) :
    dictFind (l.foldl (fun acc kv => dictSetdefault acc kv.1 kv.2) m) k =
      match dictFind m k with
      | some v => some v
      | Option.none => dictFind l k := by
  induction l generalizing m with
  | nil => cases hf : dictFind m k <;> simp [List.foldl_nil, hf, dictFind]
  | cons kv t ih =>
      simp only [List.foldl_cons]
      rw [ih, dictFind_dictSetdefault]
      cases hf : dictFind m k with
      | some v => rfl
      | none =>
          by_cases hk : kv.1 == k
          · simp [dictFind_cons, hk]
          · simp [dictFind_cons, hk]

theorem dictFind_map_replace (m : PendingMap) (k : String) (v : PendingPoint)
    (hmem : (dictFind m k).isSome) :
    dictFind (m.map (fun kv => if kv.1 == k then (k, v) else kv)) k = some v := by
  induction m with
  | nil => simp [dictFind] at hmem
  | cons kv t ih =>
      by_cases h : kv.1 == k
      · rw [List.map_cons, if_pos h, dictFind_cons]
        simp
      · have hmem' : (dictFind t k).isSome := by
          rwa [dictFind_cons, if_neg h] at hmem
        rw [List.map_cons, if_neg h, dictFind_cons, if_neg h]
        exact ih hmem'

theorem dictFind_dictSet_self (m : PendingMap) (k : String) (v : PendingPoint) :
    dictFind (dictSet m k v) k = some v := by
  unfold dictSet
  by_cases hmem : m.any (fun kv => kv.1 == k) = true
  · rw [if_pos hmem]
    exact dictFind_map_replace m k v ((any_key_eq_true_iff m k).mp hmem)
  · rw [if_neg hmem, dictFind_append]
    have hf : dictFind m k = Option.none := by
      cases hf : dictFind m k with
      | some v0 => exact absurd ((any_key_eq_true_iff m k).mpr (by simp [hf])) hmem
      | none => rfl
    rw [hf]
    show dictFind [(k, v)] k = some v
    simp [dictFind_cons]

theorem keys_map_replace (m : PendingMap) (k : String) (v : PendingPoint) :
    (m.map (fun kv => if kv.1 == k then (k, v) else kv)).map Prod.fst =
      m.map Prod.fst := by
  rw [List.map_map]
  refine List.map_congr_left ?_
  intro kv _
  by_cases h : kv.1 == k
  · have hk : kv.1 = k := by simpa using h
    simp [h, hk]
  · have hk : ¬ kv.1 = k := by simpa using h
    simp [h, hk]

theorem dictSet_keys_nodup (m : PendingMap) (k : String) (v : PendingPoint)
    (h : (m.map Prod.fst).Nodup) : ((dictSet m k v).map Prod.fst).Nodup := by
  unfold dictSet
  by_cases hmem : m.any (fun kv => kv.1 == k) = true
  · rw [if_pos hmem, keys_map_replace]
    exact h
  · rw [if_neg hmem]
    have hnotin : k ∉ m.map Prod.fst := by
      intro hk
      exact hmem ((any_key_eq_true_iff m k).mpr ((mem_keys_iff m k).mp hk))
    simp only [List.map_append, List.map_cons, List.map_nil]
    rw [List.nodup_append]
    exact ⟨h, List.nodup_singleton k,
      fun a ha hb => by
        simp only [List.mem_singleton] at hb
        exact hnotin (hb ▸ ha)⟩

/-! ## Claim C1: failed flush re-merges with insert-if-absent semantics -/

/-- C1: if the batched sink write fails, `_flush_batch` re-merges every
entry of the failed batch into the live pending map with insert-if-absent
semantics: a key for which a newer point was enqueued during the failed
write keeps the newer point (the stale one is dropped), a key with no
newer entry gets its failed point back unchanged, and every key of the
failed batch is present again afterwards. `during` is the sequence of
enqueues that land in the fresh map while the write is awaited. -/
theorem flush_batch_failure_requeues_insert_if_absent
    (pending : PendingMap) (during : List (String × PendingPoint))
    (h : pending ≠ []) :
    let live := during.foldl (fun m kv => dictSet m kv.1 kv.2) ([] : PendingMap)
    let result := (_flush_batch pending during true).1
    (∀ k p, dictFind live k = some p → dictFind result k = some p) ∧
    (∀ k, dictFind live k = Option.none → dictFind result k = dictFind pending k) ∧
    (∀ k, (dictFind pending k).isSome → (dictFind result k).isSome) := by
  intro live result
  have hne : pending.isEmpty = false := by
    cases pending with
    | nil => exact absurd rfl h
    | cons a t => rfl
  have hres : result =
      pending.foldl (fun acc kv => dictSetdefault acc kv.1 kv.2) live := by
    show (_flush_batch pending during true).1 = _
    unfold _flush_batch
    rw [hne]
    simp
  have key : ∀ k, dictFind result k =
      match dictFind live k with
      | some v => some v
      | Option.none => dictFind pending k := by
    intro k
    rw [hres, dictFind_foldl_setdefault]
  refine ⟨?_, ?_, ?_⟩
  · intro k p hp
    rw [key k, hp]
  · intro k hp
    rw [key k, hp]
  · intro k hp
    rw [key k]
    cases hl : dictFind live k with
    | some v => simp
    | none => simpa using hp

/-- Witness for C1 at a concrete batch: key `a` got a newer point during
the failed write and keeps it; key `b` did not and gets its failed point
back. -/
theorem flush_batch_failure_requeues_insert_if_absent_witness :
    dictFind ((_flush_batch [("a", c1pa), ("b", c1pb)] [("a", c1pa2)] true).1) "a" =
      some c1pa2 ∧
    dictFind ((_flush_batch [("a", c1pa), ("b", c1pb)] [("a", c1pa2)] true).1) "b" =
      some c1pb := by
  have h := flush_batch_failure_requeues_insert_if_absent
    [("a", c1pa), ("b", c1pb)] [("a", c1pa2)] (by simp)
  exact ⟨h.1 "a" c1pa2 rfl, (h.2.1 "b" rfl).trans rfl⟩

/-! ## Claim C9: stopping twice is safe and does not double-flush -/

/-- C9: calling `async_stop` twice never fails (the model is total), and
after a first stop whose final flush succeeded the pending map is empty,
the second stop performs no sink write at all and releases no handle —
each held handle was released exactly once by the first call. -/
theorem async_stop_idempotent (st : ManagerState) (b : Bool) :
    let o1 := async_stop st false
    let o2 := async_stop o1.state b
    o1.state.pending = [] ∧
    o2.writes = [] ∧
    o2.releases = 0 ∧
    o2.state = o1.state ∧
    o1.releases =
      (if st.unsub_state then 1 else 0) + (if st.unsub_batch then 1 else 0) := by
  intro o1 o2
  have hstate : o1.state = ⟨false, false, []⟩ := by
    show (async_stop st false).state = _
    unfold async_stop
    by_cases hp : st.pending.isEmpty
    · simp [hp, List.isEmpty_iff.mp hp]
    · simp [hp, _flush_batch]
  have hrel : o1.releases =
      (if st.unsub_state then 1 else 0) + (if st.unsub_batch then 1 else 0) := by
    show (async_stop st false).releases = _
    unfold async_stop
    by_cases hp : st.pending.isEmpty <;> simp [hp]
  have ho2 : o2 = ⟨⟨false, false, []⟩, 0, []⟩ := by
    show async_stop o1.state b = _
    rw [hstate]
    rfl
  refine ⟨by rw [hstate], by rw [ho2], by rw [ho2], ?_, hrel⟩
  rw [ho2, hstate]

/-! ## Claim C10: value coercion never raises -- refuted -/

/-- The decimal literal `PY_FLOAT_OVERFLOW_CUTOFF` is the round-to-nearest
overflow cutoff of an IEEE double, `2^1024 - 2^970`. -/
theorem PY_FLOAT_OVERFLOW_CUTOFF_spec :
    PY_FLOAT_OVERFLOW_CUTOFF = 2 ^ 1024 - 2 ^ 970 := by
  norm_num [PY_FLOAT_OVERFLOW_CUTOFF]

set_option maxRecDepth 8000 in
/-- C10: the claim says `_coerce_value` is total — for every value and
declared type it returns a coerced value or absent, and every parse
failure is mapped to absent rather than an error. The code contradicts
it: `float(10**999)` raises `OverflowError`, as does `int(inf)` after
`float("1e999")` silently overflows to `inf`, and the
`except (TypeError, ValueError)` clause does not catch `OverflowError`,
so the exception escapes `_coerce_value`. This theorem evaluates the
embedded code at those failing inputs — and, for contrast, shows an
ordinary parse failure (`ValueError`) and a non-numeric input
(`TypeError`) being caught and mapped to absent as the claim expects. -/
theorem coerce_value_overflow_escapes :
    _coerce_value (.int (PY_OVERFLOW_INT : ℤ)) "float" = .error .overflowError ∧
    _coerce_value (.int (PY_OVERFLOW_INT : ℤ)) "int" = .error .overflowError ∧
    _coerce_value (.str PY_OVERFLOW_STR) "int" = .error .overflowError ∧
    _coerce_value (.float (.inf false)) "int" = .error .overflowError ∧
    _coerce_value (.str PY_OVERFLOW_STR) "float" = .ok (.float (.inf false)) ∧
    _coerce_value (.str "not_a_number") "int" = .ok .none ∧
    _coerce_value (.none) "float" = .ok .none :=
  ⟨rfl, rfl, rfl, rfl, rfl, rfl, rfl⟩

/-! ## Claim C4: integer coercion semantics -/

/-- C4: the claim says `coerceInt` rounds half-to-even (42.5→42, 43.5→44,
42.7→43, "123.9"→124), matching the repository's own tests. The code is
`int(float(value))`, which truncates toward zero: 42.7→42, 43.5→43,
"123.9"→123 (42.5→42 and 42.3→42 agree only coincidentally). This theorem
evaluates the embedded code at those inputs, exhibiting the divergence. -/
theorem coerce_int_truncates_not_rounds :
    _coerce_int (.float (.finite 425 1)) = .ok 42 ∧
    _coerce_int (.float (.finite 423 1)) = .ok 42 ∧
    _coerce_int (.float (.finite 427 1)) = .ok 42 ∧
    _coerce_int (.float (.finite 435 1)) = .ok 43 ∧
    _coerce_int (.str "123.9") = .ok 123 ∧
    (42 : ℤ) ≠ 43 ∧ (43 : ℤ) ≠ 44 ∧ (123 : ℤ) ≠ 124 :=
  ⟨rfl, rfl, rfl, rfl, rfl, by decide, by decide, by decide⟩

/-! ## Claim C5: pending-map keying -/

/-- C5 counterexample: the claim says non-forecast sensors are keyed by
the bare `sensorKey`, so a later point would overwrite an earlier one even
at a different timestamp. In the code `_queue_point` keys EVERY point by
`sensorKey:timestamp`: two enqueues for the same non-forecast sensor at
different timestamps leave TWO entries with timestamped keys, and no entry
under the bare sensor key. -/
theorem queue_point_no_bare_key_counterexample :
    let m1 := _queue_point c5sensor [] (.int 1) (some ⟨100, 0⟩) Option.none ⟨0, 0⟩
    let m2 := _queue_point c5sensor m1 (.int 2) (some ⟨200, 0⟩) Option.none ⟨0, 0⟩
    m2.map Prod.fst = ["GRID_POWER_IMPORT:100.0", "GRID_POWER_IMPORT:200.0"] ∧
    m2.length = 2 ∧
    dictFind m2 "GRID_POWER_IMPORT" = Option.none :=
  ⟨rfl, rfl, rfl⟩

/-- C5 (amended): pending points are held in a map keyed by
`sensorKey:timestamp` for ALL sensors — forecast and non-forecast alike —
so enqueuing overwrites a previous un-flushed entry exactly when sensor
key and normalized timestamp coincide; the pending map never holds two
entries for the same key and the latest write wins. -/
theorem queue_point_keyed_by_sensor_and_timestamp
    (sensor : ConfiguredSensor) (m : PendingMap) (v cv : PyVal) (t now : DT)
    (hnodup : (m.map Prod.fst).Nodup)
    (hc : _coerce_value v sensor.data_type = .ok cv)
    (hcv : cv.isNone = false) :
    _queue_point sensor m v (some t) Option.none now =
      dictSet m (defaultPendingKey sensor (_normalize_timestamp t))
        ⟨sensor, cv, _normalize_timestamp t⟩ ∧
    ((_queue_point sensor m v (some t) Option.none now).map Prod.fst).Nodup ∧
    dictFind (_queue_point sensor m v (some t) Option.none now)
        (defaultPendingKey sensor (_normalize_timestamp t)) =
      some ⟨sensor, cv, _normalize_timestamp t⟩ := by
  have he : _queue_point sensor m v (some t) Option.none now =
      dictSet m (defaultPendingKey sensor (_normalize_timestamp t))
        ⟨sensor, cv, _normalize_timestamp t⟩ := by
    unfold _queue_point
    rw [hc]
    simp [hcv]
  exact ⟨he, he ▸ dictSet_keys_nodup _ _ _ hnodup, he ▸ dictFind_dictSet_self _ _ _⟩

/-- Witness for C5 (amended) at a concrete enqueue. -/
theorem queue_point_keyed_by_sensor_and_timestamp_witness :
    _queue_point c5sensor [] (.int 5) (some ⟨100, 0⟩) Option.none ⟨0, 0⟩ =
      dictSet [] (defaultPendingKey c5sensor (_normalize_timestamp ⟨100, 0⟩))
        ⟨c5sensor, .int 5, _normalize_timestamp ⟨100, 0⟩⟩ :=
  (queue_point_keyed_by_sensor_and_timestamp c5sensor [] (.int 5) (.int 5)
    ⟨100, 0⟩ ⟨0, 0⟩ (by simp) rfl rfl).1

/-! ## Claim C6: state-to-value conversion priority -/

/-- C6: `_state_to_value` returns absent for a missing state or for
`unknown`/`unavailable`; otherwise it tries, in priority order: exact
integer parse (accepted only when `str(int(raw)) == raw`, so `"42"`
becomes the integer 42 and `"3"` is distinguished from `"3.0"`), then
float parse (`"3.14"` becomes the float 3.14, here the exact decimal
`⟨314, 2⟩`), then case-insensitive boolean literals (`on`/`true` → true,
`off`/`false` → false), else the raw string unchanged. The five general
clauses state the priority chain for every string; the closed clauses
instantiate the spec's examples. -/
theorem state_to_value_priority :
    (∀ raw n, raw ≠ "unknown" → raw ≠ "unavailable" →
       pyParseInt raw = some n → toString n = raw →
       _state_to_value (some raw) = .int n) ∧
    (∀ raw q, raw ≠ "unknown" → raw ≠ "unavailable" →
       (∀ n, pyParseInt raw = some n → toString n ≠ raw) →
       pyParseFloat raw = some q →
       _state_to_value (some raw) = .float q) ∧
    (∀ raw, raw ≠ "unknown" → raw ≠ "unavailable" →
       (∀ n, pyParseInt raw = some n → toString n ≠ raw) →
       pyParseFloat raw = Option.none →
       (pyLower raw = "on" ∨ pyLower raw = "true") →
       _state_to_value (some raw) = .bool true) ∧
    (∀ raw, raw ≠ "unknown" → raw ≠ "unavailable" →
       (∀ n, pyParseInt raw = some n → toString n ≠ raw) →
       pyParseFloat raw = Option.none →
       ¬(pyLower raw = "on" ∨ pyLower raw = "true") →
       (pyLower raw = "off" ∨ pyLower raw = "false") →
       _state_to_value (some raw) = .bool false) ∧
    (∀ raw, raw ≠ "unknown" → raw ≠ "unavailable" →
       (∀ n, pyParseInt raw = some n → toString n ≠ raw) →
       pyParseFloat raw = Option.none →
       ¬(pyLower raw = "on" ∨ pyLower raw = "true") →
       ¬(pyLower raw = "off" ∨ pyLower raw = "false") →
       _state_to_value (some raw) = .str raw) ∧
    _state_to_value Option.none = .none ∧
    _state_to_value (some "unknown") = .none ∧
    _state_to_value (some "unavailable") = .none ∧
    _state_to_value (some "42") = .int 42 ∧
    _state_to_value (some "3") = .int 3 ∧
    _state_to_value (some "3.0") = .float (.finite 30 1) ∧
    _state_to_value (some "3.14") = .float (.finite 314 2) ∧
    _state_to_value (some "on") = .bool true ∧
    _state_to_value (some "TRUE") = .bool true ∧
    _state_to_value (some "off") = .bool false ∧
    _state_to_value (some "False") = .bool false ∧
    _state_to_value (some "heating") = .str "heating" := by
  refine ⟨?_, ?_, ?_, ?_, ?_, rfl, rfl, rfl, rfl, rfl, rfl, rfl, rfl, rfl, rfl, rfl, rfl⟩
  · intro raw n h1 h2 hp hrt
    simp only [_state_to_value]
    rw [if_neg (not_or.mpr ⟨h1, h2⟩)]
    simp only [hp]
    rw [if_pos hrt]
  · intro raw q h1 h2 hint hp
    simp only [_state_to_value]
    rw [if_neg (not_or.mpr ⟨h1, h2⟩)]
    cases hpi : pyParseInt raw with
    | none => simp only [hpi, hp]
    | some n =>
        simp only [hpi]
        rw [if_neg (hint n hpi)]
        simp only [hp]
  · intro raw h1 h2 hint hpf hon
    simp only [_state_to_value]
    rw [if_neg (not_or.mpr ⟨h1, h2⟩)]
    cases hpi : pyParseInt raw with
    | none =>
        simp only [hpi, hpf]
        rw [if_pos hon]
    | some n =>
        simp only [hpi]
        rw [if_neg (hint n hpi)]
        simp only [hpf]
        rw [if_pos hon]
  · intro raw h1 h2 hint hpf hon hoff
    simp only [_state_to_value]
    rw [if_neg (not_or.mpr ⟨h1, h2⟩)]
    cases hpi : pyParseInt raw with
    | none =>
        simp only [hpi, hpf]
        rw [if_neg hon, if_pos hoff]
    | some n =>
        simp only [hpi]
        rw [if_neg (hint n hpi)]
        simp only [hpf]
        rw [if_neg hon, if_pos hoff]
  · intro raw h1 h2 hint hpf hon hoff
    simp only [_state_to_value]
    rw [if_neg (not_or.mpr ⟨h1, h2⟩)]
    cases hpi : pyParseInt raw with
    | none =>
        simp only [hpi, hpf]
        rw [if_neg hon, if_neg hoff]
    | some n =>
        simp only [hpi]
        rw [if_neg (hint n hpi)]
        simp only [hpf]
        rw [if_neg hon, if_neg hoff]

/-- Witness for C6: the general integer-priority clause applied at the
concrete state string `"7"`. -/
theorem state_to_value_priority_witness :
    _state_to_value (some "7") = .int 7 :=
  state_to_value_priority.1 "7" 7 (by decide) (by decide) rfl rfl

/-! ## Claim C7: boolean coercion and unrecognized-type passthrough -/

/-- C7: `_coerce_value` with declared type `bool` passes a boolean
through unchanged, maps a numeric input by truthiness (0 → false, any
non-zero → true, in particular 1 → true), and maps a string by lowercased
lookup in the fixed table (`on`/`true`/`1`/`yes` → true,
`off`/`false`/`0`/`no` → false), returning absent for any string outside
the table; and for every value, an unrecognized declared type passes the
value through unchanged. -/
theorem coerce_value_bool_and_passthrough :
    (∀ b, _coerce_value (.bool b) "bool" = .ok (.bool b)) ∧
    (∀ n : ℤ, _coerce_value (.int n) "bool" = .ok (.bool (n != 0))) ∧
    _coerce_value (.int 0) "bool" = .ok (.bool false) ∧
    _coerce_value (.int 1) "bool" = .ok (.bool true) ∧
    (∀ s, _coerce_value (.str s) "bool" =
      .ok (match BOOL_STRING_MAP.lookup (pyLower s) with
           | some b => .bool b
           | Option.none => .none)) ∧
    _coerce_value (.str "ON") "bool" = .ok (.bool true) ∧
    _coerce_value (.str "On") "bool" = .ok (.bool true) ∧
    _coerce_value (.str "1") "bool" = .ok (.bool true) ∧
    _coerce_value (.str "yes") "bool" = .ok (.bool true) ∧
    _coerce_value (.str "off") "bool" = .ok (.bool false) ∧
    _coerce_value (.str "0") "bool" = .ok (.bool false) ∧
    _coerce_value (.str "no") "bool" = .ok (.bool false) ∧
    _coerce_value (.str "maybe") "bool" = .ok .none ∧
    (∀ v dt, dt ≠ "int" → dt ≠ "float" → dt ≠ "string" → dt ≠ "bool" →
       _coerce_value v dt = .ok v) := by
  refine ⟨fun b => rfl, fun n => rfl, rfl, rfl, ?_, rfl, rfl, rfl, rfl, rfl, rfl,
    rfl, rfl, ?_⟩
  · intro s
    cases hl : BOOL_STRING_MAP.lookup (pyLower s) with
    | none => simp [_coerce_value, hl]
    | some b => simp [_coerce_value, hl]
  · intro v dt hi hf hs hb
    unfold _coerce_value
    rw [if_neg hi, if_neg hf, if_neg hs, if_neg hb]

/-- Witness for C7: the passthrough clause applied at a concrete value
and an unrecognized declared type. -/
theorem coerce_value_bool_and_passthrough_witness :
    _coerce_value (.str "heating") "status" = .ok (.str "heating") :=
  coerce_value_bool_and_passthrough.2.2.2.2.2.2.2.2.2.2.2.2.2
    (.str "heating") "status" (by decide) (by decide) (by decide) (by decide)

/-! ## Coercion inversion and float-range lemmas -/

theorem PyFloat.trunc_ofInt (n : ℤ) : (PyFloat.ofInt n).trunc = .ok n := by
  simp [PyFloat.trunc, PyFloat.ofInt, Int.tdiv_one]

theorem mkPyFloat_range (neg : Bool) (digits fracLen : ℕ) (e : ℤ) (m : ℤ) (sc : ℕ)
    (h : mkPyFloat neg digits fracLen e = .finite m sc) :
    m.natAbs < PY_FLOAT_OVERFLOW_CUTOFF * 10 ^ sc := by
  unfold mkPyFloat at h
  by_cases hc : PY_FLOAT_OVERFLOW_CUTOFF * 10 ^ (mkPyFloatDigits digits fracLen e).2 ≤
      (mkPyFloatDigits digits fracLen e).1
  · rw [if_pos hc] at h
    simp at h
  · rw [if_neg hc] at h
    rw [PyFloat.finite.injEq] at h
    obtain ⟨hm, hsc⟩ := h
    subst hsc
    subst hm
    cases neg <;> simp only [if_true, if_false, Bool.false_eq_true, Int.natAbs_neg,
      Int.natAbs_ofNat] <;> omega

theorem pyParseFloat_range (s : String) (f : PyFloat) (h : pyParseFloat s = some f) :
    PyFloat.fin_range f := by
  simp only [pyParseFloat] at h
  split at h
  · simp at h
  · split at h
    · have hf := Option.some.inj h
      cases f with
      | finite m sc => exact mkPyFloat_range _ _ _ _ _ _ hf
      | inf n => trivial
    · simp at h

/-- Floats produced along the real pipeline are within the double range:
`py_float` yields only in-range finite values or infinities, provided any
float handed straight through was itself in range. -/
theorem py_float_fin_range (v : PyVal) (f : PyFloat)
    (hfl : ∀ q, v = .float q → PyFloat.fin_range q)
    (h : py_float v = .ok f) : PyFloat.fin_range f := by
  cases v with
  | int n =>
      by_cases hov : PY_FLOAT_OVERFLOW_CUTOFF ≤ n.natAbs
      · simp [py_float, hov] at h
      · have hfe : f = .ofInt n := by simpa [py_float, hov] using h.symm
        subst hfe
        simp only [PyFloat.fin_range, PyFloat.ofInt, pow_zero, Nat.mul_one]
        omega
  | float q =>
      have hfe : f = q := by simpa [py_float] using h.symm
      subst hfe
      exact hfl f rfl
  | bool b =>
      have hfe : f = .ofInt (if b then 1 else 0) := by simpa [py_float] using h.symm
      subst hfe
      have h1 : 1 < PY_FLOAT_OVERFLOW_CUTOFF := by decide
      cases b <;> simp [PyFloat.fin_range, PyFloat.ofInt] <;> omega
  | str s =>
      cases hp : pyParseFloat s with
      | none => simp [py_float, hp] at h
      | some q =>
          have hfe : f = q := by simpa [py_float, hp] using h.symm
          subst hfe
          exact pyParseFloat_range s f hp
  | none => simp [py_float] at h
  | list l => simp [py_float] at h
  | dict d => simp [py_float] at h

theorem coerce_int_inv (v cv : PyVal) (h : _coerce_value v "int" = .ok cv) :
    (∃ n, cv = .int n) ∨ cv = .none := by
  cases v with
  | int n =>
      by_cases hov : PY_FLOAT_OVERFLOW_CUTOFF ≤ n.natAbs
      · exfalso
        simp [_coerce_value, _coerce_int, py_float, hov, Except.bind, Except.map] at h
      · refine Or.inl ⟨n, ?_⟩
        simpa [_coerce_value, _coerce_int, py_float, hov, PyFloat.trunc,
          PyFloat.ofInt, Except.bind, Except.map, Int.tdiv_one] using h.symm
  | float q =>
      cases q with
      | finite m sc =>
          refine Or.inl ⟨m.tdiv (10 ^ sc), ?_⟩
          simpa [_coerce_value, _coerce_int, py_float, PyFloat.trunc,
            Except.bind, Except.map] using h.symm
      | inf n =>
          exfalso
          simp [_coerce_value, _coerce_int, py_float, PyFloat.trunc,
            Except.bind, Except.map] at h
  | bool b =>
      cases b
      · refine Or.inl ⟨0, ?_⟩
        simpa [_coerce_value, _coerce_int, py_float, PyFloat.trunc,
          PyFloat.ofInt, Except.bind, Except.map, Int.tdiv_one] using h.symm
      · refine Or.inl ⟨1, ?_⟩
        simpa [_coerce_value, _coerce_int, py_float, PyFloat.trunc,
          PyFloat.ofInt, Except.bind, Except.map, Int.tdiv_one] using h.symm
  | str s =>
      cases hp : pyParseFloat s with
      | none =>
          refine Or.inr ?_
          simpa [_coerce_value, _coerce_int, py_float, hp, Except.bind, Except.map] using h.symm
      | some q =>
          cases q with
          | finite m sc =>
              refine Or.inl ⟨m.tdiv (10 ^ sc), ?_⟩
              simpa [_coerce_value, _coerce_int, py_float, hp, PyFloat.trunc,
                Except.bind, Except.map] using h.symm
          | inf n =>
              exfalso
              simp [_coerce_value, _coerce_int, py_float, hp, PyFloat.trunc,
                Except.bind, Except.map] at h
  | none =>
      refine Or.inr ?_
      simpa [_coerce_value, _coerce_int, py_float, Except.bind, Except.map] using h.symm
  | list l =>
      refine Or.inr ?_
      simpa [_coerce_value, _coerce_int, py_float, Except.bind, Except.map] using h.symm
  | dict d =>
      refine Or.inr ?_
      simpa [_coerce_value, _coerce_int, py_float, Except.bind, Except.map] using h.symm

theorem coerce_float_inv (v cv : PyVal) (h : _coerce_value v "float" = .ok cv) :
    (∃ q, cv = .float q) ∨ cv = .none := by
  cases v with
  | int n =>
      by_cases hov : PY_FLOAT_OVERFLOW_CUTOFF ≤ n.natAbs
      · exfalso
        simp [_coerce_value, py_float, hov, Except.map] at h
      · refine Or.inl ⟨.ofInt n, ?_⟩
        simpa [_coerce_value, py_float, hov, Except.map] using h.symm
  | float q =>
      refine Or.inl ⟨q, ?_⟩
      simpa [_coerce_value, py_float, Except.map] using h.symm
  | bool b =>
      refine Or.inl ⟨.ofInt (if b then 1 else 0), ?_⟩
      simpa [_coerce_value, py_float, Except.map] using h.symm
  | str s =>
      cases hp : pyParseFloat s with
      | none =>
          refine Or.inr ?_
          simpa [_coerce_value, py_float, hp, Except.map] using h.symm
      | some q =>
          refine Or.inl ⟨q, ?_⟩
          simpa [_coerce_value, py_float, hp, Except.map] using h.symm
  | none =>
      refine Or.inr ?_
      simpa [_coerce_value, py_float, Except.map] using h.symm
  | list l =>
      refine Or.inr ?_
      simpa [_coerce_value, py_float, Except.map] using h.symm
  | dict d =>
      refine Or.inr ?_
      simpa [_coerce_value, py_float, Except.map] using h.symm

theorem coerce_string_inv (v cv : PyVal) (h : _coerce_value v "string" = .ok cv) :
    cv = .str (py_str v) := by
  simpa [_coerce_value] using h.symm

theorem coerce_bool_inv (v cv : PyVal) (h : _coerce_value v "bool" = .ok cv) :
    (∃ b, cv = .bool b) ∨ cv = .none := by
  cases v with
  | int n =>
      refine Or.inl ⟨n != 0, ?_⟩
      simpa [_coerce_value] using h.symm
  | float q =>
      refine Or.inl ⟨q.beq (.ofInt 0) == false, ?_⟩
      simpa [_coerce_value] using h.symm
  | bool b =>
      refine Or.inl ⟨b, ?_⟩
      simpa [_coerce_value] using h.symm
  | str s =>
      cases hl : BOOL_STRING_MAP.lookup (pyLower s) with
      | none =>
          refine Or.inr ?_
          simpa [_coerce_value, hl] using h.symm
      | some b =>
          refine Or.inl ⟨b, ?_⟩
          simpa [_coerce_value, hl] using h.symm
  | none =>
      refine Or.inr ?_
      simpa [_coerce_value] using h.symm
  | list l =>
      refine Or.inr ?_
      simpa [_coerce_value] using h.symm
  | dict d =>
      refine Or.inr ?_
      simpa [_coerce_value] using h.symm

theorem coerce_other_inv (v cv : PyVal) (dt : String)
    (hi : dt ≠ "int") (hf : dt ≠ "float") (hs : dt ≠ "string") (hb : dt ≠ "bool")
    (h : _coerce_value v dt = .ok cv) : cv = v := by
  unfold _coerce_value at h
  rw [if_neg hi, if_neg hf, if_neg hs, if_neg hb] at h
  exact (Except.ok.inj h).symm

/-- Coercing an int within the double range to `"int"` returns it unchanged. -/
theorem coerce_int_small (n : ℤ) (hov : ¬ PY_FLOAT_OVERFLOW_CUTOFF ≤ n.natAbs) :
    _coerce_value (.int n) "int" = .ok (.int n) := by
  simp [_coerce_value, _coerce_int, py_float, hov, PyFloat.trunc, PyFloat.ofInt,
    Except.bind, Except.map, Int.tdiv_one]

/-- Re-coercion is the identity on an already coerced non-absent value,
provided any float handed in straight from the event pipeline was within
the double range (always true of the values `_state_to_value`
produces). -/
theorem coerce_value_idem (v cv : PyVal) (dt : String)
    (hfl : ∀ q, v = .float q → PyFloat.fin_range q)
    (h : _coerce_value v dt = .ok cv) (hcv : cv.isNone = false) :
    _coerce_value cv dt = .ok cv := by
  by_cases hi : dt = "int"
  · subst hi
    cases hp : py_float v with
    | error e =>
        cases e with
        | typeError =>
            have hc0 : cv = PyVal.none := by
              simpa [_coerce_value, _coerce_int, hp, Except.bind, Except.map] using h.symm
            rw [hc0] at hcv
            simp [PyVal.isNone] at hcv
        | valueError =>
            have hc0 : cv = PyVal.none := by
              simpa [_coerce_value, _coerce_int, hp, Except.bind, Except.map] using h.symm
            rw [hc0] at hcv
            simp [PyVal.isNone] at hcv
        | overflowError =>
            exfalso
            simp [_coerce_value, _coerce_int, hp, Except.bind, Except.map] at h
        | otherError =>
            exfalso
            simp [_coerce_value, _coerce_int, hp, Except.bind, Except.map] at h
    | ok f =>
        cases f with
        | inf n =>
            exfalso
            simp [_coerce_value, _coerce_int, hp, PyFloat.trunc, Except.bind, Except.map] at h
        | finite m sc =>
            have hcveq : cv = .int (m.tdiv (10 ^ sc)) := by
              simpa [_coerce_value, _coerce_int, hp, PyFloat.trunc,
                Except.bind, Except.map] using h.symm
            subst hcveq
            have hrange : m.natAbs < PY_FLOAT_OVERFLOW_CUTOFF * 10 ^ sc :=
              py_float_fin_range v _ hfl hp
            have hn : (m.tdiv (10 ^ sc)).natAbs < PY_FLOAT_OVERFLOW_CUTOFF := by
              rw [Int.natAbs_tdiv]
              have h10 : ((10 : ℤ) ^ sc).natAbs = 10 ^ sc := by
                simp [Int.natAbs_pow]
              rw [h10]
              rw [Nat.mul_comm] at hrange
              exact Nat.div_lt_of_lt_mul hrange
            exact coerce_int_small _ (by omega)
  by_cases hf : dt = "float"
  · subst hf
    rcases coerce_float_inv v cv h with ⟨q, rfl⟩ | rfl
    · simp [_coerce_value, py_float, Except.map, hi]
    · simp [PyVal.isNone] at hcv
  by_cases hs : dt = "string"
  · subst hs
    rw [coerce_string_inv v cv h]
    simp [_coerce_value, py_str, hi, hf]
  by_cases hb : dt = "bool"
  · subst hb
    rcases coerce_bool_inv v cv h with ⟨b, rfl⟩ | rfl
    · simp [_coerce_value, hi, hf, hs]
    · simp [PyVal.isNone] at hcv
  · have hcveq := coerce_other_inv v cv dt hi hf hs hb h
    subst hcveq
    exact h

/-- `afterIntVal` yields a float only by a successful float parse. -/
theorem afterIntVal_float_parse (raw : String) (q : PyFloat)
    (h : afterIntVal raw = .float q) : pyParseFloat raw = some q := by
  unfold afterIntVal at h
  cases hp : pyParseFloat raw with
  | some q0 =>
      rw [hp] at h
      have h2 : PyVal.float q0 = PyVal.float q := h
      exact congrArg some (PyVal.float.inj h2)
  | none =>
      rw [hp] at h
      have h2 : (if pyLower raw = "on" ∨ pyLower raw = "true" then PyVal.bool true
        else if pyLower raw = "off" ∨ pyLower raw = "false" then PyVal.bool false
        else PyVal.str raw) = PyVal.float q := h
      exfalso
      split_ifs at h2

/-- `_state_to_value` yields a float only by a successful float parse of
the raw state string. -/
theorem state_to_value_float_parse (sv : Option String) (q : PyFloat)
    (h : _state_to_value sv = .float q) : ∃ raw, pyParseFloat raw = some q := by
  cases sv with
  | none => simp [_state_to_value] at h
  | some raw =>
      refine ⟨raw, ?_⟩
      simp only [_state_to_value] at h
      by_cases hu : raw = "unknown" ∨ raw = "unavailable"
      · rw [if_pos hu] at h
        simp at h
      · rw [if_neg hu] at h
        cases hpi : pyParseInt raw with
        | some n =>
            rw [hpi] at h
            have h2 : (if toString n = raw then PyVal.int n else afterIntVal raw)
                = PyVal.float q := h
            by_cases hrt : toString n = raw
            · rw [if_pos hrt] at h2
              simp at h2
            · rw [if_neg hrt] at h2
              exact afterIntVal_float_parse raw q h2
        | none =>
            rw [hpi] at h
            have h2 : afterIntVal raw = PyVal.float q := h
            exact afterIntVal_float_parse raw q h2

/-- Floats produced by `_state_to_value` are within the double range. -/
theorem state_to_value_float_range (sv : Option String) (v0 : PyVal)
    (hv : _state_to_value sv = v0) :
    ∀ q, v0 = .float q → PyFloat.fin_range q := by
  intro q hq
  obtain ⟨raw, hraw⟩ := state_to_value_float_parse sv q (hv.trans hq)
  exact pyParseFloat_range raw q hraw

/-! ## Scalar values and Python equality facts -/

theorem pyEq_refl_scalar (v : PyVal) (h : Scalar v) : pyEq v v = true := by
  cases v with
  | int n => simp [pyEq, PyVal.numVal, PyFloat.beq, PyFloat.ofInt]
  | float q => cases q <;> simp [pyEq, PyVal.numVal, PyFloat.beq]
  | bool b => simp [pyEq, PyVal.numVal, PyFloat.beq, PyFloat.ofInt]
  | str s => simp [pyEq, PyVal.numVal]
  | none => simp [pyEq, PyVal.numVal]
  | list l => exact h.elim
  | dict d => exact h.elim

theorem afterIntVal_scalar (raw : String) : Scalar (afterIntVal raw) := by
  unfold afterIntVal
  cases pyParseFloat raw with
  | some q => trivial
  | none =>
      show Scalar (if pyLower raw = "on" ∨ pyLower raw = "true" then PyVal.bool true
        else if pyLower raw = "off" ∨ pyLower raw = "false" then PyVal.bool false
        else PyVal.str raw)
      by_cases h1 : pyLower raw = "on" ∨ pyLower raw = "true"
      · rw [if_pos h1]
        trivial
      · rw [if_neg h1]
        by_cases h2 : pyLower raw = "off" ∨ pyLower raw = "false"
        · rw [if_pos h2]
          trivial
        · rw [if_neg h2]
          trivial

theorem state_to_value_scalar (st : Option String) : Scalar (_state_to_value st) := by
  cases st with
  | none => trivial
  | some raw =>
      simp only [_state_to_value]
      by_cases hu : raw = "unknown" ∨ raw = "unavailable"
      · rw [if_pos hu]
        trivial
      · rw [if_neg hu]
        cases pyParseInt raw with
        | some n =>
            show Scalar (if toString n = raw then PyVal.int n else afterIntVal raw)
            by_cases hrt : toString n = raw
            · rw [if_pos hrt]
              trivial
            · rw [if_neg hrt]
              exact afterIntVal_scalar raw
        | none =>
            show Scalar (afterIntVal raw)
            exact afterIntVal_scalar raw

theorem coerce_value_scalar (v cv : PyVal) (dt : String) (hv : Scalar v)
    (h : _coerce_value v dt = .ok cv) : Scalar cv := by
  by_cases hi : dt = "int"
  · subst hi
    rcases coerce_int_inv v cv h with ⟨n, rfl⟩ | rfl <;> trivial
  by_cases hf : dt = "float"
  · subst hf
    rcases coerce_float_inv v cv h with ⟨q, rfl⟩ | rfl <;> trivial
  by_cases hs : dt = "string"
  · subst hs
    rw [coerce_string_inv v cv h]
    trivial
  by_cases hb : dt = "bool"
  · subst hb
    rcases coerce_bool_inv v cv h with ⟨b, rfl⟩ | rfl <;> trivial
  · have hcveq := coerce_other_inv v cv dt hi hf hs hb h
    subst hcveq
    exact hv

theorem pyEq_false_of_zero_pos (a b : PyVal) (lq cq : PyFloat)
    (ha : a.numVal = some lq) (h0 : lq.beq (.ofInt 0) = true)
    (hb : b.numVal = some cq) (hp : PyFloat.blt (.ofInt 0) cq = true) :
    pyEq a b = false := by
  have hne : lq.beq cq = false := by
    cases lq with
    | inf n1 => simp [PyFloat.beq, PyFloat.ofInt] at h0
    | finite m1 s1 =>
        have hm1 : m1 = 0 := by
          simpa [PyFloat.beq, PyFloat.ofInt] using h0
        subst hm1
        cases cq with
        | inf n2 => simp [PyFloat.beq]
        | finite m2 s2 =>
            have hm2 : 0 < m2 := by
              simpa [PyFloat.blt, PyFloat.ofInt] using hp
            have hpos : 0 < m2 * 10 ^ s1 :=
              mul_pos hm2 (pow_pos (by norm_num) _)
            simp only [PyFloat.beq, zero_mul, beq_eq_false_iff_ne, ne_eq]
            omega
  simp only [pyEq, ha, hb, hne]

/-! ## Evaluation of the non-forecast state-change handler -/

/-- Evaluation lemma for `_handle_state_change` on a non-forecast sensor
whose state yields a present value that coerces successfully: the handler
either skips (value and normalized timestamp both unchanged) or applies
the gap-fill decision, updates the sensor, and queues the point(s). -/
theorem handle_state_change_eval
    (parseDT : String → Option DT) (ws : List (DT × PyVal))
    (sensor : ConfiguredSensor) (pending : PendingMap) (st : HAState) (now : DT)
    (v0 cv : PyVal)
    (hkey : sensor.key ∉ FORECAST_SENSOR_KEYS)
    (hv : _state_to_value (some st.state) = v0)
    (hv0 : v0.isNone = false)
    (hc : _coerce_value v0 sensor.data_type = .ok cv)
    (hcv : cv.isNone = false) :
    _handle_state_change parseDT ws sensor pending (some st) now =
      if pyEq sensor.last_value cv ∧
          sensor.last_timestamp = some (_normalize_timestamp st.ts) then
        (sensor, pending)
      else
        let should_gap_fill : Bool :=
          match sensor.last_timestamp, sensor.last_value.numVal, cv.numVal with
          | some lastT, some lastN, some coercedN =>
              lastN.beq (.ofInt 0) && PyFloat.blt (.ofInt 0) coercedN &&
                decide (GAP_FILL_ZERO_RESUME_THRESHOLD_US ≤
                  (_normalize_timestamp st.ts).diffUs lastT)
          | _, _, _ => false
        let sensor' := { sensor with last_value := cv, last_timestamp := some (_normalize_timestamp st.ts) }
        let pending' :=
          if should_gap_fill then
            _queue_point sensor' pending (.int 0)
              (some ((_normalize_timestamp st.ts).subSec 1)) Option.none now
          else pending
        (sensor', _queue_point sensor' pending' cv
          (some (_normalize_timestamp st.ts)) Option.none now) := by
  unfold _handle_state_change
  rw [if_neg hkey]
  simp only [Option.map_some', Option.getD_some, hv, hc, hv0, hcv,
    Bool.false_eq_true, if_false]

/-! ## Queue-point evaluation and zero coercion -/

/-- `_queue_point` with an explicit timestamp and no explicit key is one
timestamped-key `dictSet` when the value coerces to a non-absent value. -/
theorem queue_point_eval (sensor : ConfiguredSensor) (m : PendingMap) (v cv : PyVal)
    (t now : DT) (hc : _coerce_value v sensor.data_type = .ok cv)
    (hcv : cv.isNone = false) :
    _queue_point sensor m v (some t) Option.none now =
      dictSet m (defaultPendingKey sensor (_normalize_timestamp t))
        ⟨sensor, cv, _normalize_timestamp t⟩ := by
  unfold _queue_point
  rw [hc]
  simp [hcv]

/-- Coercing the Python literal `0` under any non-`string` declared type
yields a numerically-zero, non-absent value (int 0, float 0.0, or bool
`False` — which IS numeric zero in Python). -/
theorem coerce_zero_numeric (dt : String) (hdt : dt ≠ "string") :
    ∃ zv, _coerce_value (.int 0) dt = .ok zv ∧ zv.numVal = some (.ofInt 0) ∧
      zv.isNone = false := by
  by_cases hi : dt = "int"
  · subst hi
    exact ⟨.int 0, rfl, rfl, rfl⟩
  by_cases hf : dt = "float"
  · subst hf
    exact ⟨.float (.ofInt 0), rfl, rfl, rfl⟩
  by_cases hb : dt = "bool"
  · subst hb
    exact ⟨.bool false, rfl, rfl, rfl⟩
  · refine ⟨.int 0, ?_, rfl, rfl⟩
    unfold _coerce_value
    rw [if_neg hi, if_neg hf, if_neg hdt, if_neg hb]

/-! ## Claim C2: the gap-fill rule -/

/-- C2: for a non-forecast sensor whose last recorded value is numeric
zero at last timestamp `T`, when a new numeric coerced value `> 0` arrives
with normalized timestamp `T'`: if `T' - T ≥ 30 s`, handling the event
enqueues exactly two pending points — a zero-valued point (the coercion of
`0`, numerically zero) at `T' - 1 s` and the new point at `T'`; if the gap
is `< 30 s`, only the single new point is enqueued. -/
theorem handle_state_change_gap_fill
    (parseDT : String → Option DT) (ws : List (DT × PyVal))
    (sensor : ConfiguredSensor) (pending : PendingMap) (st : HAState) (now : DT)
    (v0 cv : PyVal) (lq cq : PyFloat) (T : DT)
    (hkey : sensor.key ∉ FORECAST_SENSOR_KEYS)
    (hv : _state_to_value (some st.state) = v0)
    (hv0 : v0.isNone = false)
    (hc : _coerce_value v0 sensor.data_type = .ok cv)
    (hnum : cv.numVal = some cq)
    (hpos : PyFloat.blt (.ofInt 0) cq = true)
    (hlastn : sensor.last_value.numVal = some lq)
    (hlast0 : lq.beq (.ofInt 0) = true)
    (hlastt : sensor.last_timestamp = some T) :
    ∃ zv, _coerce_value (.int 0) sensor.data_type = .ok zv ∧
      zv.numVal = some (.ofInt 0) ∧
      ∀ T' sensor', T' = _normalize_timestamp st.ts →
        sensor' = { sensor with last_value := cv, last_timestamp := some T' } →
        _handle_state_change parseDT ws sensor pending (some st) now =
          (sensor',
           if GAP_FILL_ZERO_RESUME_THRESHOLD_US ≤ T'.diffUs T then
             dictSet (dictSet pending (defaultPendingKey sensor' (T'.subSec 1))
                 ⟨sensor', zv, T'.subSec 1⟩)
               (defaultPendingKey sensor' T') ⟨sensor', cv, T'⟩
           else dictSet pending (defaultPendingKey sensor' T') ⟨sensor', cv, T'⟩) := by
  have hcv : cv.isNone = false := by
    cases cv <;> simp_all [PyVal.numVal, PyVal.isNone]
  have hdtstr : sensor.data_type ≠ "string" := by
    intro hstr
    rw [hstr] at hc
    rw [coerce_string_inv v0 cv hc] at hnum
    simp [PyVal.numVal] at hnum
  obtain ⟨zv, hz, hzn, hznn⟩ := coerce_zero_numeric sensor.data_type hdtstr
  refine ⟨zv, hz, hzn, ?_⟩
  intro T' sensor' hT hs
  subst hT
  subst hs
  have hpe : pyEq sensor.last_value cv = false :=
    pyEq_false_of_zero_pos _ _ lq cq hlastn hlast0 hnum hpos
  have hskip : ¬(pyEq sensor.last_value cv = true ∧
      sensor.last_timestamp = some (_normalize_timestamp st.ts)) := by
    rintro ⟨h1, -⟩
    rw [hpe] at h1
    exact Bool.false_ne_true h1
  rw [handle_state_change_eval parseDT ws sensor pending st now v0 cv hkey hv hv0
    hc hcv, if_neg hskip]
  simp only [hlastt, hlastn, hnum, hlast0, hpos, Bool.true_and, decide_eq_true_eq]
  by_cases hgap : GAP_FILL_ZERO_RESUME_THRESHOLD_US ≤
      (_normalize_timestamp st.ts).diffUs T
  · rw [if_pos hgap, if_pos hgap]
    rw [queue_point_eval { sensor with last_value := cv, last_timestamp := some (_normalize_timestamp st.ts) }
      pending (.int 0) zv ((_normalize_timestamp st.ts).subSec 1) now hz hznn]
    rw [queue_point_eval { sensor with last_value := cv, last_timestamp := some (_normalize_timestamp st.ts) }
      _ cv cv (_normalize_timestamp st.ts) now
      (coerce_value_idem v0 cv sensor.data_type (state_to_value_float_range (some st.state) v0 hv) hc hcv) hcv]
    rfl
  · rw [if_neg hgap, if_neg hgap]
    rw [queue_point_eval { sensor with last_value := cv, last_timestamp := some (_normalize_timestamp st.ts) }
      pending cv cv (_normalize_timestamp st.ts) now
      (coerce_value_idem v0 cv sensor.data_type (state_to_value_float_range (some st.state) v0 hv) hc hcv) hcv]
    rfl

/-- Witness for C2 at the spec's concrete sensor history: last value 0 at
T = 1000 s, new value "5" at T' = 1035 s (a 35 s gap), yielding the
zero point at 1034 s and the value-5 point at 1035 s. -/
theorem handle_state_change_gap_fill_witness :
    _handle_state_change (fun _ => Option.none) [] c2sensor []
        (some ⟨"5", ⟨1035, 0⟩, PyVal.none⟩) ⟨0, 0⟩ =
      (c2sensorAfter,
       dictSet (dictSet [] "HOUSE_POWER:1034.0" ⟨c2sensorAfter, .int 0, ⟨1034, 0⟩⟩)
         "HOUSE_POWER:1035.0" ⟨c2sensorAfter, .int 5, ⟨1035, 0⟩⟩) := by
  obtain ⟨zv, hz, hzn, h⟩ := handle_state_change_gap_fill (fun _ => Option.none) []
    c2sensor [] ⟨"5", ⟨1035, 0⟩, PyVal.none⟩ ⟨0, 0⟩ (.int 5) (.int 5)
    (.ofInt 0) (.ofInt 5) ⟨1000, 0⟩
    (by decide) rfl rfl rfl rfl rfl rfl rfl rfl
  have hzv : zv = .int 0 := Except.ok.inj (hz.symm.trans rfl)
  rw [h ⟨1035, 0⟩ c2sensorAfter rfl rfl, hzv, if_pos (by decide)]
  rfl

/-! ## Claim C3: exact-duplicate suppression -/

/-- C3: for a non-forecast sensor, a change event whose coerced value
equals the last recorded value (Python `==`) and whose normalized
timestamp equals the last recorded timestamp is skipped entirely — the
sensor and the pending map are returned unchanged, so no point is queued
and no gap-fill is considered. Moreover (second conjunct) for ANY
non-forecast sensor of the same declared type, feeding the same state
twice in a row makes the second update a no-op. -/
theorem handle_state_change_dedup
    (parseDT : String → Option DT) (ws : List (DT × PyVal))
    (sensor : ConfiguredSensor) (pending : PendingMap) (st : HAState) (now : DT)
    (v0 cv : PyVal)
    (hkey : sensor.key ∉ FORECAST_SENSOR_KEYS)
    (hv : _state_to_value (some st.state) = v0)
    (hv0 : v0.isNone = false)
    (hc : _coerce_value v0 sensor.data_type = .ok cv)
    (hcv : cv.isNone = false)
    (heq : pyEq sensor.last_value cv = true)
    (hts : sensor.last_timestamp = some (_normalize_timestamp st.ts)) :
    _handle_state_change parseDT ws sensor pending (some st) now =
      (sensor, pending) ∧
    (∀ (sensor0 : ConfiguredSensor) (pending0 : PendingMap),
      sensor0.key ∉ FORECAST_SENSOR_KEYS →
      sensor0.data_type = sensor.data_type →
      _handle_state_change parseDT ws
          (_handle_state_change parseDT ws sensor0 pending0 (some st) now).1
          (_handle_state_change parseDT ws sensor0 pending0 (some st) now).2
          (some st) now =
        _handle_state_change parseDT ws sensor0 pending0 (some st) now) := by
  have hscal : Scalar cv :=
    coerce_value_scalar v0 cv sensor.data_type
      (hv ▸ state_to_value_scalar (some st.state)) hc
  have hrefl : pyEq cv cv = true := pyEq_refl_scalar cv hscal
  constructor
  · rw [handle_state_change_eval parseDT ws sensor pending st now v0 cv hkey hv
      hv0 hc hcv, if_pos ⟨heq, hts⟩]
  · intro sensor0 pending0 hkey0 hdt
    have hc0 : _coerce_value v0 sensor0.data_type = .ok cv := hdt ▸ hc
    by_cases hskip : pyEq sensor0.last_value cv = true ∧
        sensor0.last_timestamp = some (_normalize_timestamp st.ts)
    · have hr1 : _handle_state_change parseDT ws sensor0 pending0 (some st) now =
          (sensor0, pending0) := by
        rw [handle_state_change_eval parseDT ws sensor0 pending0 st now v0 cv
          hkey0 hv hv0 hc0 hcv, if_pos hskip]
      rw [hr1]
      exact hr1
    · have h1 : (_handle_state_change parseDT ws sensor0 pending0 (some st) now).1 =
          { sensor0 with last_value := cv, last_timestamp := some (_normalize_timestamp st.ts) } := by
        rw [handle_state_change_eval parseDT ws sensor0 pending0 st now v0 cv
          hkey0 hv hv0 hc0 hcv, if_neg hskip]
      rw [h1]
      rw [handle_state_change_eval parseDT ws
        { sensor0 with last_value := cv, last_timestamp := some (_normalize_timestamp st.ts) }
        ((_handle_state_change parseDT ws sensor0 pending0 (some st) now).2)
        st now v0 cv hkey0 hv hv0 hc0 hcv, if_pos ⟨hrefl, rfl⟩]
      rw [← h1]

/-- Witness for C3: feeding the identical (value "5") state at the
identical timestamp to a sensor already tracking value 5 at that
timestamp leaves the sensor and the pending map untouched. -/
theorem handle_state_change_dedup_witness :
    _handle_state_change (fun _ => Option.none) [] c3sensor [("x", c1pa)]
        (some ⟨"5", ⟨1035, 0⟩, PyVal.none⟩) ⟨0, 0⟩ =
      (c3sensor, [("x", c1pa)]) :=
  (handle_state_change_dedup (fun _ => Option.none) [] c3sensor [("x", c1pa)]
    ⟨"5", ⟨1035, 0⟩, PyVal.none⟩ ⟨0, 0⟩ (.int 5) (.int 5)
    (by decide) rfl rfl rfl rfl rfl rfl).1

/-! ## Sorting lemmas and claim C8: forecast extraction -/

theorem DT.le_total (a b : DT) : a.le b = true ∨ b.le a = true := by
  simp only [DT.le, Bool.or_eq_true, Bool.and_eq_true, decide_eq_true_eq, beq_iff_eq]
  omega

theorem DT.le_trans (a b c : DT) (h1 : a.le b = true) (h2 : b.le c = true) :
    a.le c = true := by
  simp only [DT.le, Bool.or_eq_true, Bool.and_eq_true, decide_eq_true_eq,
    beq_iff_eq] at *
  omega

theorem mem_insertSorted (x : DT × PyVal) (l : List (DT × PyVal)) (z : DT × PyVal)
    (hz : z ∈ insertSorted x l) : z = x ∨ z ∈ l := by
  induction l with
  | nil => simpa [insertSorted] using hz
  | cons y ys ih =>
      simp only [insertSorted] at hz
      by_cases hxy : x.1.le y.1 = true
      · rw [if_pos hxy] at hz
        rcases List.mem_cons.mp hz with rfl | hz'
        · exact Or.inl rfl
        · exact Or.inr hz'
      · rw [if_neg hxy] at hz
        rcases List.mem_cons.mp hz with rfl | hz'
        · exact Or.inr (List.mem_cons_self _ _)
        · rcases ih hz' with h | h
          · exact Or.inl h
          · exact Or.inr (List.mem_cons_of_mem _ h)

theorem insertSorted_pairwise (x : DT × PyVal) (l : List (DT × PyVal))
    (h : l.Pairwise (fun a b => a.1.le b.1 = true)) :
    (insertSorted x l).Pairwise (fun a b => a.1.le b.1 = true) := by
  induction l with
  | nil => simp [insertSorted]
  | cons y ys ih =>
      rw [List.pairwise_cons] at h
      obtain ⟨hy, hys⟩ := h
      simp only [insertSorted]
      by_cases hxy : x.1.le y.1 = true
      · rw [if_pos hxy]
        refine List.Pairwise.cons ?_ (List.Pairwise.cons hy hys)
        intro z hz
        rcases List.mem_cons.mp hz with rfl | hz'
        · exact hxy
        · exact DT.le_trans _ _ _ hxy (hy z hz')
      · rw [if_neg hxy]
        refine List.Pairwise.cons ?_ (ih hys)
        intro z hz
        rcases mem_insertSorted x ys z hz with rfl | hz'
        · rcases DT.le_total z.1 y.1 with h' | h'
          · exact absurd h' hxy
          · exact h'
        · exact hy z hz'

theorem pySorted_pairwise (l : List (DT × PyVal)) :
    (pySorted l).Pairwise (fun a b => a.1.le b.1 = true) := by
  induction l with
  | nil => simp [pySorted]
  | cons x xs ih =>
      simp only [pySorted]
      exact insertSorted_pairwise x (pySorted xs) ih

/-- C8: forecast extraction produces one (timestamp, value) pair per slot
that has both a parseable time under the first truthy key among
`datetime`/`time`/`period_end` and a non-missing requested value key; a
slot missing either is dropped without affecting the other slots (first
two clauses); any non-list payload yields an empty series (third
clause); the series is queued in ascending timestamp order — `pySorted`
output is always chronologically sorted (fourth clause) and
`_queue_forecast_points` folds over it in that order; concretely, the
3-slot ascending `power` payload yields exactly those 3 pending points
under timestamped keys in ascending time order (last two clauses). -/
theorem forecast_extraction
    :
    (∀ (parseDT : String → Option DT) (vk : String) (l1 l2 : List PyVal)
       (bad : PyVal), extract_slot parseDT vk bad = Option.none →
       _attribute_forecast_series parseDT (.list (l1 ++ bad :: l2)) vk =
         _attribute_forecast_series parseDT (.list l1) vk ++
           _attribute_forecast_series parseDT (.list l2) vk) ∧
    (∀ (parseDT : String → Option DT) (vk : String) (l1 l2 : List PyVal)
       (good : PyVal) (p : DT × PyVal), extract_slot parseDT vk good = some p →
       _attribute_forecast_series parseDT (.list (l1 ++ good :: l2)) vk =
         _attribute_forecast_series parseDT (.list l1) vk ++ p ::
           _attribute_forecast_series parseDT (.list l2) vk) ∧
    (∀ (parseDT : String → Option DT) (vk : String) (v : PyVal),
       (∀ l, v ≠ .list l) → _attribute_forecast_series parseDT v vk = []) ∧
    (∀ series0 : List (DT × PyVal),
       (pySorted series0).Pairwise (fun a b => a.1.le b.1 = true)) ∧
    _attribute_forecast_series c8parse c8payload "power" =
      [(⟨100, 0⟩, .int 1500), (⟨200, 0⟩, .int 1800), (⟨300, 0⟩, .int 1200)] ∧
    _queue_forecast_points c8parse [] c8sensor [] (some ⟨"x", ⟨0, 0⟩, c8payload⟩)
        ⟨0, 0⟩ =
      [("INVERTER_POWER_FORECAST:100.0", ⟨c8sensor, .int 1500, ⟨100, 0⟩⟩),
       ("INVERTER_POWER_FORECAST:200.0", ⟨c8sensor, .int 1800, ⟨200, 0⟩⟩),
       ("INVERTER_POWER_FORECAST:300.0", ⟨c8sensor, .int 1200, ⟨300, 0⟩⟩)] := by
  refine ⟨?_, ?_, ?_, pySorted_pairwise, rfl, rfl⟩
  · intro parseDT vk l1 l2 bad h
    simp [_attribute_forecast_series, List.filterMap_append, List.filterMap_cons, h]
  · intro parseDT vk l1 l2 good p h
    simp [_attribute_forecast_series, List.filterMap_append, List.filterMap_cons, h]
  · intro parseDT vk v hv
    cases v with
    | list l => exact absurd rfl (hv l)
    | int n => rfl
    | float q => rfl
    | bool b => rfl
    | str s => rfl
    | dict d => rfl
    | none => rfl

/-- Witness for C8: a middle slot missing the requested `power` key is
dropped without affecting the surrounding slots. -/
theorem forecast_extraction_witness :
    _attribute_forecast_series c8parse
        (.list [.dict [("datetime", .str "100"), ("power", .int 1500)],
                .dict [("datetime", .str "150"), ("other", .int 1)],
                .dict [("datetime", .str "300"), ("power", .int 1200)]]) "power" =
      [(⟨100, 0⟩, .int 1500), (⟨300, 0⟩, .int 1200)] := by
  have h := forecast_extraction.1 c8parse "power"
    [.dict [("datetime", .str "100"), ("power", .int 1500)]]
    [.dict [("datetime", .str "300"), ("power", .int 1200)]]
    (.dict [("datetime", .str "150"), ("other", .int 1)]) rfl
  exact h.trans rfl
